import Mathlib

/-!
Verification development for the smart-file-organizer repository.

Shallow embedding of the core pipeline: the rules engine pattern matcher
(app/core/rules_engine.py), the classifier (app/core/classifier.py), the
organization pipeline (app/core/organizer.py), the persistent ledger and
duplicate index (app/core/database.py) and the undo flow
(app/ui/history_viewer.py).  Filesystem and database effects are modelled
by explicit inputs (an environment record) and outputs (result records);
Python exceptions raised by the environment are modelled as Except values.
-/

namespace SFO

/-! ## String helpers

Python str.lower and the substring operator `in` over ASCII-ish text,
modelled over lists of characters. -/

def lowerL (l : List Char) : List Char := l.map Char.toLower

def strLower (s : String) : String := ⟨lowerL s.data⟩

/-- Does the first list occur as the leading run of the second? -/
def leadsList : List Char → List Char → Bool
  | [], _ => true
  | _ :: _, [] => false
  | a :: as, b :: bs => a == b && leadsList as bs

/-- Python substring test: does needle occur contiguously inside hay?
Mirrors that the empty needle is contained in every string. -/
def containsSub : List Char → List Char → Bool
  | n, [] => leadsList n []
  | n, c :: t => leadsList n (c :: t) || containsSub n t

/-! ## Shell-glob matching

Model of pathlib `Path.match(pattern)` for a pattern without a path
separator, which matches the whole final name component: `*` matches any
run of characters, `?` any single character, and every other character
matches itself (case-sensitively, the POSIX flavour).  Character classes
never occur on this branch of `_match_pattern`, because a `[` in the
pattern routes it to the regex branch. -/

def globFuel : Nat → List Char → List Char → Bool
  | 0, _, _ => false
  | _ + 1, [], [] => true
  | _ + 1, [], _ :: _ => false
  | f + 1, '*' :: ps, [] => globFuel f ps []
  | f + 1, '*' :: ps, c :: s => globFuel f ps (c :: s) || globFuel f ('*' :: ps) s
  | _ + 1, '?' :: _, [] => false
  | f + 1, '?' :: ps, _ :: s => globFuel f ps s
  | f + 1, p :: ps, c :: s => p == c && globFuel f ps s
  | _ + 1, _ :: _, [] => false

/-- Every recursive step of the glob matcher shrinks the combined length of
pattern and input, so this fuel always suffices. -/
def globMatch (p s : List Char) : Bool := globFuel (p.length + s.length + 1) p s

/-! ## Regular-expression matching

Model of Python `re.match(pattern, name, re.IGNORECASE)` as used by
`Rule._match_pattern`: the regex must match at the start of the name (a
prefix match), comparisons ignore case.  The engine covers the constructs
the rule patterns use: literal characters, `\`-escaped literals, the
classes `\d \w \s` and their negations, bracket classes with ranges,
`.`, grouping, alternation, and the repeaters `* + ?`.  A pattern the
parser does not accept makes the match return false, mirroring that a
`re.error` inside `Rule.matches` is caught and turns into a non-match. -/

inductive RE where
  | fail : RE
  | eps : RE
  | lit : Char → RE
  | cls : Bool → List (Char × Char) → RE
  | seq : RE → RE → RE
  | alt : RE → RE → RE
  | star : RE → RE
deriving DecidableEq

def nullable : RE → Bool
  | .fail => false
  | .eps => true
  | .lit _ => false
  | .cls _ _ => false
  | .seq a b => nullable a && nullable b
  | .alt a b => nullable a || nullable b
  | .star _ => true

/-- Case-insensitive literal comparison (re.IGNORECASE). -/
def litEq (p c : Char) : Bool := p == c || p.toLower == c.toLower

def inRange (r : Char × Char) (c : Char) : Bool := r.1 ≤ c && c ≤ r.2

/-- Case-insensitive class membership: the character matches if it, or a
case-folded form of it, falls in one of the ranges. -/
def clsMatch (neg : Bool) (rs : List (Char × Char)) (c : Char) : Bool :=
  let hit := rs.any fun r => inRange r c || inRange r c.toLower || inRange r c.toUpper
  if neg then !hit else hit

def deriv : RE → Char → RE
  | .fail, _ => .fail
  | .eps, _ => .fail
  | .lit p, c => if litEq p c then .eps else .fail
  | .cls n rs, c => if clsMatch n rs c then .eps else .fail
  | .seq a b, c =>
      if nullable a then .alt (.seq (deriv a c) b) (deriv b c) else .seq (deriv a c) b
  | .alt a b, c => .alt (deriv a c) (deriv b c)
  | .star r, c => .seq (deriv r c) (.star r)

/-- Does the regex match some leading part of the input (re.match)? -/
def matchHead : RE → List Char → Bool
  | r, [] => nullable r
  | r, c :: cs => nullable r || matchHead (deriv r c) cs

/-- Does the regex match the whole input (used for a trailing anchor)? -/
def matchAll : RE → List Char → Bool
  | r, [] => nullable r
  | r, c :: cs => matchAll (deriv r c) cs

/-- Parse a bracket class body up to the closing bracket. -/
def parseCls : List Char → Option (List (Char × Char) × List Char)
  | [] => none
  | ']' :: rest => some ([], rest)
  | a :: '-' :: ']' :: rest => some ([(a, a), ('-', '-')], rest)
  | a :: '-' :: b :: rest => (parseCls rest).map fun pr => ((a, b) :: pr.1, pr.2)
  | a :: rest => (parseCls rest).map fun pr => ((a, a) :: pr.1, pr.2)

/-- Apply a trailing repeat operator to a parsed atom. -/
def applyRep (r : RE) : List Char → RE × List Char
  | '*' :: t => (.star r, t)
  | '+' :: t => (.seq r (.star r), t)
  | '?' :: t => (.alt r .eps, t)
  | s => (r, s)

def anyChar : RE := .cls true [('\n', '\n')]

def escAtom (c : Char) : Option RE :=
  if c = 'd' then some (.cls false [('0', '9')])
  else if c = 'D' then some (.cls true [('0', '9')])
  else if c = 'w' then some (.cls false [('a', 'z'), ('A', 'Z'), ('0', '9'), ('_', '_')])
  else if c = 'W' then some (.cls true [('a', 'z'), ('A', 'Z'), ('0', '9'), ('_', '_')])
  else if c = 's' then some (.cls false [(' ', ' '), ('\t', '\t'), ('\n', '\n'), ('\r', '\r')])
  else if c.isAlpha || c.isDigit then none
  else some (.lit c)

/-- Parser modes: alternation level, sequence level, single atom. -/
inductive PMode where
  | top : PMode
  | sq : PMode
  | atom : PMode
deriving DecidableEq

/-- Recursive-descent parser for the supported regex subset, written as a
single fuel-indexed function so it reduces in the kernel. -/
def pRun : Nat → PMode → List Char → Option (RE × List Char)
  | 0, _, _ => none
  | f + 1, .top, s =>
    match pRun f .sq s with
    | none => none
    | some (r, rest) =>
      match rest with
      | '|' :: rest2 =>
        match pRun f .top rest2 with
        | some (r2, rest3) => some (.alt r r2, rest3)
        | none => none
      | _ => some (r, rest)
  | f + 1, .sq, s =>
    match s with
    | [] => some (.eps, [])
    | ')' :: _ => some (.eps, s)
    | '|' :: _ => some (.eps, s)
    | _ =>
      match pRun f .atom s with
      | none => none
      | some (a, rest) =>
        match pRun f .sq rest with
        | some (b, rest2) => some (.seq a b, rest2)
        | none => none
  | f + 1, .atom, s =>
    match s with
    | [] => none
    | '(' :: rest =>
      match pRun f .top rest with
      | some (r, ')' :: rest2) => some (applyRep r rest2)
      | _ => none
    | '[' :: '^' :: rest =>
      match parseCls rest with
      | some (rs, rest2) => some (applyRep (.cls true rs) rest2)
      | none => none
    | '[' :: rest =>
      match parseCls rest with
      | some (rs, rest2) => some (applyRep (.cls false rs) rest2)
      | none => none
    | '\\' :: c :: rest =>
      match escAtom c with
      | some r => some (applyRep r rest)
      | none => none
    | '.' :: rest => some (applyRep anyChar rest)
    | '^' :: _ => none
    | '$' :: _ => none
    | '*' :: _ => none
    | '+' :: _ => none
    | '?' :: _ => none
    | ')' :: _ => none
    | c :: rest => some (applyRep (.lit c) rest)

/-- Strip a trailing unescaped end anchor, reporting whether it was there. -/
def stripEnd (l : List Char) : List Char × Bool :=
  match l.reverse with
  | '$' :: '\\' :: _ => (l, false)
  | '$' :: t => (t.reverse, true)
  | _ => (l, false)

/-- Strip one leading start anchor (re.match is anchored there anyway). -/
def stripStart : List Char → List Char
  | '^' :: t => t
  | l => l

/-- Model of `re.match(pattern, s, re.IGNORECASE)` turned into a Bool. -/
def reMatchIC (pattern s : String) : Bool :=
  let pr := stripEnd pattern.data
  let body := stripStart pr.1
  match pRun (5 * body.length + 10) .top body with
  | some (r, []) => if pr.2 then matchAll r s.data else matchHead r s.data
  | _ => false

/-! ## Pattern dispatch (Rule._match_pattern)

A pattern containing any of `[ ] ( ) ^ $ +` is evaluated as a regex,
anything else as a glob against the filename (rules_engine.py lines
51-61).  An empty pattern makes `Path.match` raise, which `Rule.matches`
catches and turns into a non-match, so the total model returns false. -/

def isSpecialChar (c : Char) : Bool :=
  c == '[' || c == ']' || c == '(' || c == ')' || c == '^' || c == '$' || c == '+'

def hasSpecial (p : String) : Bool := p.data.any isSpecialChar

def matchPattern (p name : String) : Bool :=
  if p.data = [] then false
  else if hasSpecial p then reMatchIC p name
  else globMatch p.data name.data

/-! ## Decimal rendering of the collision counter

Model of how the f-string in `_get_unique_path` renders the integer
counter: its decimal digits.  Injectivity of the rendering is what makes
the linear collision probe terminate on a fresh name. -/

def digitChar (d : Nat) : Char := Char.ofNat (48 + d)

def undigit (c : Char) : Nat := c.toNat - 48

/-- Little-endian base-10 digits, written with explicit fuel so it
reduces in the kernel; with fuel at least n it agrees with Nat.digits. -/
def digitsFuel : Nat → Nat → List Nat
  | 0, _ => []
  | f + 1, n => if n = 0 then [] else n % 10 :: digitsFuel f (n / 10)

theorem digitsFuel_eq_digits : ∀ f n, n ≤ f → digitsFuel f n = Nat.digits 10 n := by
  intro f
  induction f with
  | zero =>
    intro n hn
    have : n = 0 := Nat.le_zero.mp hn
    simp [this, digitsFuel]
  | succ f ih =>
    intro n hn
    by_cases h0 : n = 0
    · simp [h0, digitsFuel]
    · have hpos : 0 < n := Nat.pos_of_ne_zero h0
      rw [digitsFuel, if_neg h0, Nat.digits_def' (by norm_num : 1 < 10) hpos]
      congr 1
      exact ih (n / 10) (by omega)

def natStr (n : Nat) : String :=
  if n = 0 then "0" else ⟨(digitsFuel n n).reverse.map digitChar⟩

theorem natStr_eq_digits (n : Nat) (h : n ≠ 0) :
    natStr n = ⟨(Nat.digits 10 n).reverse.map digitChar⟩ := by
  rw [natStr, if_neg h, digitsFuel_eq_digits n n le_rfl]

theorem undigit_digitChar : ∀ d, d < 10 → undigit (digitChar d) = d := by decide

theorem render_digits (n : Nat) :
    ((Nat.digits 10 n).reverse.map digitChar).map undigit = (Nat.digits 10 n).reverse := by
  rw [List.map_map]
  refine List.map_congr_left ?_ |>.trans (List.map_id _)
  intro d hd
  exact undigit_digitChar d (Nat.digits_lt_base (by norm_num) (List.mem_reverse.mp hd))

theorem natStr_data_inj : ∀ m n, (natStr m).data = (natStr n).data → m = n := by
  have key : ∀ m n, m ≠ 0 → n ≠ 0 →
      (Nat.digits 10 m).reverse.map digitChar = (Nat.digits 10 n).reverse.map digitChar →
      m = n := by
    intro m n _ _ h
    have h2 := congrArg (List.map undigit) h
    rw [render_digits, render_digits] at h2
    have h3 := congrArg List.reverse h2
    rw [List.reverse_reverse, List.reverse_reverse] at h3
    calc m = Nat.ofDigits 10 (Nat.digits 10 m) := (Nat.ofDigits_digits 10 m).symm
      _ = Nat.ofDigits 10 (Nat.digits 10 n) := by rw [h3]
      _ = n := Nat.ofDigits_digits 10 n
  have zero_case : ∀ n, n ≠ 0 → ('0' :: [] : List Char) ≠ (Nat.digits 10 n).reverse.map digitChar := by
    intro n hn h
    have hlen := congrArg List.length h
    simp only [List.length_cons, List.length_nil, List.length_map, List.length_reverse] at hlen
    obtain ⟨d, hd⟩ : ∃ d, Nat.digits 10 n = [d] := by
      cases hds : Nat.digits 10 n with
      | nil => rw [hds] at hlen; simp at hlen
      | cons a t =>
        rw [hds] at hlen
        simp only [List.length_cons] at hlen
        have : t.length = 0 := by omega
        exact ⟨a, by rw [List.length_eq_zero] at this; rw [this]⟩
    rw [hd] at h
    simp only [List.reverse_cons, List.reverse_nil, List.nil_append, List.map_cons,
      List.map_nil, List.cons.injEq, and_true] at h
    have hd10 : d < 10 := Nat.digits_lt_base (by norm_num) (by rw [hd]; exact List.mem_singleton.mpr rfl)
    have : undigit '0' = undigit (digitChar d) := congrArg undigit h
    rw [undigit_digitChar d hd10] at this
    have hd0 : d = 0 := by simpa [undigit] using this.symm
    have := Nat.ofDigits_digits 10 n
    rw [hd, hd0] at this
    simp [Nat.ofDigits] at this
    exact hn this.symm
  intro m n h
  by_cases hm : m = 0 <;> by_cases hn : n = 0
  · omega
  · exfalso
    rw [natStr, if_pos hm, natStr_eq_digits n hn] at h
    exact zero_case n hn h
  · exfalso
    rw [natStr_eq_digits m hm, natStr, if_pos hn] at h
    exact zero_case m hm h.symm
  · rw [natStr_eq_digits m hm, natStr_eq_digits n hn] at h
    exact key m n hm hn h

/-! ## Path construction and collision avoidance (_get_unique_path)

Destinations are strings built as parent/stem[_counter]suffix.  The
filesystem contents relevant to collision probing are modelled as the
list of currently existing paths.  `_get_unique_path` probes `_1`, `_2`,
... until the candidate does not exist; the fuel `existing.length + 1`
is always enough because the candidates are pairwise distinct strings. -/

def joinPath (a b : String) : String := ⟨a.data ++ '/' :: b.data⟩

def mkCand (parent stem sfx : String) (k : Nat) : String :=
  ⟨parent.data ++ '/' :: (stem.data ++ '_' :: ((natStr k).data ++ sfx.data))⟩

def basePath (parent stem sfx : String) : String :=
  ⟨parent.data ++ '/' :: (stem.data ++ sfx.data)⟩

def probeAux (existing : List String) (parent stem sfx : String) : Nat → Nat → String
  | 0, k => mkCand parent stem sfx k
  | f + 1, k =>
    let c := mkCand parent stem sfx k
    if c ∈ existing then probeAux existing parent stem sfx f (k + 1) else c

def getUniquePath (parent stem sfx : String) (existing : List String) : String :=
  if basePath parent stem sfx ∈ existing then
    probeAux existing parent stem sfx existing.length 1
  else basePath parent stem sfx

theorem mkCand_inj {p st sx : String} {i j : Nat} :
    mkCand p st sx i = mkCand p st sx j → i = j := by
  intro h
  have hdata := congrArg String.data h
  rw [mkCand, mkCand] at hdata
  have h1 := List.append_cancel_left hdata
  rw [List.cons.injEq] at h1
  have h2 := List.append_cancel_left h1.2
  rw [List.cons.injEq] at h2
  have h3 := List.append_cancel_right h2.2
  exact natStr_data_inj i j h3

theorem probeAux_spec (existing : List String) (p st sx : String) :
    ∀ f k, probeAux existing p st sx f k ∉ existing ∨
      ∀ i, i ≤ f → mkCand p st sx (k + i) ∈ existing := by
  intro f
  induction f with
  | zero =>
    intro k
    by_cases hm : mkCand p st sx k ∈ existing
    · right
      intro i hi
      have : i = 0 := Nat.le_zero.mp hi
      simpa [this] using hm
    · left
      simpa [probeAux] using hm
  | succ f ih =>
    intro k
    by_cases hm : mkCand p st sx k ∈ existing
    · have hstep : probeAux existing p st sx (f + 1) k = probeAux existing p st sx f (k + 1) := by
        simp [probeAux, hm]
      rcases ih (k + 1) with hfree | hall
      · left; rw [hstep]; exact hfree
      · right
        intro i hi
        cases i with
        | zero => simpa using hm
        | succ j =>
          have : k + (j + 1) = (k + 1) + j := by omega
          rw [this]
          exact hall j (by omega)
    · left
      simp [probeAux, hm]

theorem getUniquePath_not_mem (p st sx : String) (existing : List String) :
    getUniquePath p st sx existing ∉ existing := by
  rw [getUniquePath]
  split
  · rcases probeAux_spec existing p st sx existing.length 1 with hfree | hall
    · exact hfree
    · exfalso
      set L := (List.range (existing.length + 1)).map (fun i => mkCand p st sx (1 + i)) with hL
      have hnodup : L.Nodup := by
        refine List.Nodup.map ?_ (List.nodup_range _)
        intro a b hab
        have := mkCand_inj hab
        omega
      have hsub : ∀ x ∈ L, x ∈ existing := by
        intro x hx
        rw [hL, List.mem_map] at hx
        obtain ⟨i, hi, rfl⟩ := hx
        rw [List.mem_range] at hi
        exact hall i (by omega)
      have hsubF : L.toFinset ⊆ existing.toFinset := by
        intro x hx
        rw [List.mem_toFinset] at hx ⊢
        exact hsub x hx
      have hcardL : L.toFinset.card = existing.length + 1 := by
        rw [List.toFinset_card_of_nodup hnodup, hL, List.length_map, List.length_range]
      have hcard := Finset.card_le_card hsubF
      have hcardE : existing.toFinset.card ≤ existing.length := existing.toFinset_card_le
      omega
  · assumption

theorem probeAux_shape (existing : List String) (p st sx : String) :
    ∀ f k, ∃ m, probeAux existing p st sx f k = mkCand p st sx m := by
  intro f
  induction f with
  | zero => intro k; exact ⟨k, rfl⟩
  | succ f ih =>
    intro k
    by_cases hm : mkCand p st sx k ∈ existing
    · obtain ⟨m, hmEq⟩ := ih (k + 1)
      exact ⟨m, by simpa [probeAux, hm] using hmEq⟩
    · exact ⟨k, by simp [probeAux, hm]⟩

/-- Every path the probe returns sits directly under the parent folder. -/
theorem getUniquePath_under (p st sx : String) (existing : List String) :
    ∃ rest, (getUniquePath p st sx existing).data = p.data ++ '/' :: rest := by
  rw [getUniquePath]
  split
  · obtain ⟨m, hmEq⟩ := probeAux_shape existing p st sx existing.length 1
    exact ⟨st.data ++ '_' :: ((natStr m).data ++ sx.data), by rw [hmEq]; rfl⟩
  · exact ⟨st.data ++ sx.data, rfl⟩

/-! ## Stem and suffix (pathlib) -/

/-- Index of the last dot in a character list, if any. -/
def lastDotIdx : List Char → Option Nat
  | [] => none
  | c :: rest =>
    match lastDotIdx rest with
    | some i => some (i + 1)
    | none => if c = '.' then some 0 else none

/-- pathlib stem/suffix split: the name splits at the last dot when that
dot is neither the first nor the last character; otherwise the suffix is
empty. -/
def stemSuffix (name : String) : String × String :=
  match lastDotIdx name.data with
  | some i =>
    if 0 < i ∧ i < name.data.length - 1 then (⟨name.data.take i⟩, ⟨name.data.drop i⟩)
    else (name, "")
  | none => (name, "")

theorem stemSuffix_append (name : String) :
    (stemSuffix name).1.data ++ (stemSuffix name).2.data = name.data := by
  rw [stemSuffix]
  rcases h : lastDotIdx name.data with _ | i
  · simp
  · dsimp only
    split
    · exact List.take_append_drop i name.data
    · simp

/-! ## Content-analysis metadata (ContentAnalyzer)

The analyze_file result dictionary, restricted to the keys the pipeline
reads: content_text, the inner metadata map's has_gps entry, and
suggested_category.  An absent dictionary key is `none`. -/

structure Metadata where
  content_text : String
  has_gps : Option Bool
  suggested_category : Option String
deriving DecidableEq

/-- Model of content_analyzer.py lines 130-131: `_analyze_image` stores
`has_gps = True` when the EXIF data has a GPSInfo entry, and otherwise
leaves the key unset (it is never set to False). -/
def analyzeImageHasGps (gpsInfoPresent : Bool) : Option Bool :=
  if gpsInfoPresent then some true else none

/-! ## Rules engine (rules_engine.py) -/

/-- The condition dictionary of a rule; `none` models an absent key.
A numeric size threshold is a rational (Python floats compare exactly on
these magnitudes). -/
structure Conditions where
  min_size_mb : Option ℚ := none
  max_size_mb : Option ℚ := none
  older_than_days : Option Int := none
  newer_than_days : Option Int := none
  extensions : Option (List String) := none
  contains_text : Option String := none
  has_gps : Option Bool := none
deriving DecidableEq

structure Rule where
  id : Nat
  name : String
  pattern : String
  target_folder : String
  conditions : Conditions
  priority : Int := 0
  enabled : Bool := true
deriving DecidableEq

/-- The per-file data `_check_conditions` reads from the filesystem:
the filename, the byte size from stat, and the file age in whole days
(which Python computes as a possibly negative timedelta.days). -/
structure FileCtx where
  name : String
  sizeBytes : Nat
  ageDays : Int
deriving DecidableEq

/-- The byte size divided by 1024*1024, computed exactly (the Python
float computation is exact at these magnitudes); written with mkRat so
it evaluates in the kernel. -/
def sizeMBOf (bytes : Nat) : ℚ := mkRat bytes 1048576

/-- A natural number as an exact rational, kernel-evaluable. -/
def natQ (n : Nat) : ℚ := mkRat n 1

theorem sizeMBOf_eq (b : Nat) : sizeMBOf b = (b : ℚ) / 1048576 := by
  rw [sizeMBOf, Rat.mkRat_eq_div]
  push_cast
  ring

theorem natQ_eq (n : Nat) : natQ n = (n : ℚ) := by
  rw [natQ, Rat.mkRat_eq_div]
  push_cast
  ring

/-- The content text `_check_conditions` reads: metadata.get("content_text", "")
with the whole dictionary defaulting to empty when absent. -/
def textOf (md : Option Metadata) : String := (md.map Metadata.content_text).getD ""

/-- metadata.get("metadata", \x7b\x7d).get("has_gps"): None unless both the
dictionary and the key are present. -/
def effGps (md : Option Metadata) : Option Bool := md.bind Metadata.has_gps

def condMinSize (ctx : FileCtx) (c : Conditions) : Bool :=
  match c.min_size_mb with
  | some v => !(sizeMBOf ctx.sizeBytes < v)
  | none => true

def condMaxSize (ctx : FileCtx) (c : Conditions) : Bool :=
  match c.max_size_mb with
  | some v => !(v < sizeMBOf ctx.sizeBytes)
  | none => true

def condOlder (ctx : FileCtx) (c : Conditions) : Bool :=
  match c.older_than_days with
  | some v => !(ctx.ageDays < v)
  | none => true

def condNewer (ctx : FileCtx) (c : Conditions) : Bool :=
  match c.newer_than_days with
  | some v => !(v < ctx.ageDays)
  | none => true

def condExt (ctx : FileCtx) (c : Conditions) : Bool :=
  match c.extensions with
  | some exts => strLower (stemSuffix ctx.name).2 ∈ exts
  | none => true

def condText (md : Option Metadata) (c : Conditions) : Bool :=
  match c.contains_text with
  | some s => containsSub (lowerL s.data) (lowerL (textOf md).data)
  | none => true

def condGps (md : Option Metadata) (c : Conditions) : Bool :=
  match c.has_gps with
  | some v => effGps md == some v
  | none => true

/-- `Rule._check_conditions`: every condition whose key is present must
hold (the Python code returns False at the first failing check, which is
the conjunction of the individual checks). -/
def checkConditions (ctx : FileCtx) (md : Option Metadata) (c : Conditions) : Bool :=
  condMinSize ctx c && condMaxSize ctx c && condOlder ctx c && condNewer ctx c &&
    condExt ctx c && condText md c && condGps md c

/-- `Rule.matches`: disabled rules never match; otherwise the filename
pattern and all conditions must hold.  The model is total, mirroring
that `matches` catches every exception and reports a non-match. -/
def ruleMatches (ctx : FileCtx) (md : Option Metadata) (r : Rule) : Bool :=
  r.enabled && matchPattern r.pattern ctx.name && checkConditions ctx md r.conditions

/-- `RulesEngine.apply_rules`: first matching rule in list order wins (the
engine keeps its list sorted by descending priority). -/
def applyRules : List Rule → FileCtx → Option Metadata → Option String
  | [], _, _ => none
  | r :: rest, ctx, md =>
    if ruleMatches ctx md r then some r.target_folder else applyRules rest ctx md

/-! ## Classifier (classifier.py) -/

def extensionRules : List (String × List String) :=
  [("Images", [".jpg", ".jpeg", ".png", ".gif", ".bmp", ".svg", ".webp", ".ico"]),
   ("Documents", [".pdf", ".docx", ".doc", ".txt", ".odt", ".rtf"]),
   ("Spreadsheets", [".xlsx", ".xls", ".csv", ".ods"]),
   ("Presentations", [".pptx", ".ppt", ".odp"]),
   ("Videos", [".mp4", ".avi", ".mkv", ".mov", ".wmv", ".flv", ".webm"]),
   ("Audio", [".mp3", ".wav", ".flac", ".aac", ".ogg", ".m4a", ".wma"]),
   ("Archives", [".zip", ".rar", ".7z", ".tar", ".gz", ".bz2"]),
   ("Code", [".py", ".java", ".cpp", ".c", ".js", ".ts", ".html", ".css", ".php"]),
   ("Executables", [".exe", ".msi", ".dmg", ".app", ".deb", ".rpm"])]

def keywordRules : List (String × List String) :=
  [("Finance", ["invoice", "bill", "receipt", "payment", "transaction"]),
   ("Education", ["assignment", "homework", "project", "syllabus", "lecture"]),
   ("Work", ["report", "proposal", "meeting", "presentation"]),
   ("Personal", ["vacation", "family", "personal", "photo"])]

def firstHit (table : List (String × List String)) (test : String → Bool) : Option String :=
  match table with
  | [] => none
  | (cat, items) :: rest =>
    if items.any test then some cat else firstHit rest test

def classifyByExt (name : String) : String :=
  let sfx := strLower (stemSuffix name).2
  (firstHit extensionRules (fun e => e == sfx)).getD "Other"

def classifyByName (name : String) : Option String :=
  firstHit keywordRules (fun kw => containsSub kw.data (lowerL name.data))

/-- `FileClassifier.classify`: with use_ai the keyword-in-filename table
is tried first, then the extension table (default "Other"). -/
def classify (name : String) (useAi : Bool) : String :=
  if useAi then
    match classifyByName name with
    | some c => c
    | none => classifyByExt name
  else classifyByExt name

/-! ## Persistent ledger and duplicate index (database.py) -/

/-- A row of the file_operations table as the pipeline writes it (the id
and timestamp are assigned by the store). -/
structure LogEntry where
  filename : String
  original_path : String
  destination_path : String
  category : String
  operation_type : String
  file_size : Nat
  file_hash : Option String
  success : Bool
  error_message : Option String
deriving DecidableEq

/-- `Database.log_operation`: the insert either yields the new row id or
fails inside the store; the failure is caught and reported as the
sentinel -1, never as an exception (the model is a total function). -/
def logOperation (_entry : LogEntry) (persist : Except String Nat) : Int :=
  match persist with
  | .ok i => (i : Int)
  | .error _ => -1

/-- A row of the duplicate_hashes table. -/
structure DupEntry where
  original_path : String
  file_size : Nat
  first_seen : Nat
  last_seen : Nat
  duplicate_count : Nat
deriving DecidableEq

/-- The duplicate index keyed by content digest; lookup is by the unique
file_hash column. -/
def lookupIdx (h : String) (idx : List (String × DupEntry)) : Option DupEntry :=
  (idx.find? fun p => p.1 == h).map Prod.snd

/-- The UPDATE of a repeat sighting: refresh last_seen, bump the count. -/
def bumpEntry (now : Nat) (e : DupEntry) : DupEntry :=
  { e with last_seen := now, duplicate_count := e.duplicate_count + 1 }

/-- `Database.add_duplicate_hash`: on a repeat sighting bump the counter
and refresh last_seen and answer true; on a first sighting insert a fresh
row and answer false.  When the underlying store fails, the transaction
rolls back, the exception is swallowed and the answer is false
(database.py lines 294-296). -/
def addDuplicateHash (dbFails : Bool) (h fpath : String) (size now : Nat)
    (idx : List (String × DupEntry)) : List (String × DupEntry) × Bool :=
  if dbFails then (idx, false)
  else
    match lookupIdx h idx with
    | some _ =>
      (idx.map fun p => if p.1 == h then (p.1, bumpEntry now p.2) else p, true)
    | none => (idx ++ [(h, ⟨fpath, size, now, now, 0⟩)], false)

/-- `Database.mark_operation_undone`: set can_undo to 0 on the row with
the given id. -/
structure OpRow where
  id : Nat
  entry : LogEntry
  can_undo : Bool
deriving DecidableEq

def markOperationUndone (opId : Nat) (ledger : List OpRow) : List OpRow :=
  ledger.map fun r => if r.id == opId then { r with can_undo := false } else r

/-! ## Size rendering for the too-large message -/

/-- Floor of q*10 + 1/2 computed by integer floor division: the nearest
tenth, as an integer count of tenths (models the .1f rounding; the exact
tie-breaking of the binary float formatting is immaterial here). -/
def tenths (q : ℚ) : Int := Int.fdiv (20 * q.num + q.den) (2 * q.den)

/-- Model of the f-string `File too large (\x7bsize_mb:.1f\x7dMB)`: the size in
MB rendered with one decimal digit (rounding to nearest). -/
def fmtOneDec (q : ℚ) : String :=
  let n : Int := tenths q
  (if n < 0 then "-" else "") ++ natStr (n.natAbs / 10) ++ "." ++ natStr (n.natAbs % 10)

def tooLargeMsg (q : ℚ) : String := "File too large (" ++ fmtOneDec q ++ "MB)"

/-! ## Organization pipeline (organizer.py, organize_file) -/

/-- Pipeline configuration fields the pipeline reads (config.py). -/
structure Config where
  max_file_size_mb : Nat
  enable_duplicates : Bool
  ai_classification : Bool
  duplicate_folder : String
  organized_folder : String
deriving DecidableEq

/-- Environment of one organize_file call: what the filesystem, clock and
store do when consulted.  Python exceptions raised by an effect are
modelled as `Except.error` carrying str(e). -/
structure Env where
  fileExists : Bool
  fileSize : Nat
  ageDays : Int
  now : Nat
  hashResult : Except String String
  dbAddDupFails : Bool
  analyzerResult : Except String Metadata
  existing : List String
  moveResult : Except String Unit

inductive Outcome where
  | notFound : Outcome
  | tooLarge : Outcome
  | duplicate : Outcome
  | organized : Outcome
  | errored : Outcome
deriving DecidableEq

/-- Which classification tier produced the category (instrumentation of
the cascade; `rules` is tier 1, `content` and `nameHeur` are tier 2,
`fallback` is tier 3). -/
inductive Tier where
  | rules : Tier
  | content : Tier
  | nameHeur : Tier
  | fallback : Tier
deriving DecidableEq

/-- Everything one organize_file call returns and effects: the returned
(success, message, category, size) tuple, the outcome class, the ledger
writes, the statistics upserts (category, files, size, duplicates,
errors), the move that was performed, the updated duplicate index, the
answer of the duplicate upsert if consulted, and the category the
cascade assigned together with its tier. -/
structure OrganizeResult where
  success : Bool
  message : String
  category : String
  size : Nat
  outcome : Outcome
  logs : List LogEntry
  stats : List (String × Nat × Nat × Nat × Nat)
  moved : Option (String × String)
  dupIndex : List (String × DupEntry)
  dupReported : Option Bool
  classification : Option (String × Tier)
deriving DecidableEq

/-- Metadata available to tier 1 (organizer.py lines 123-130): computed
only when both a rules engine and a content analyzer are configured; an
analyzer exception is caught and leaves it None. -/
def tier1Meta (rulesEngine : Option (List Rule)) (hasAnalyzer : Bool)
    (ana : Except String Metadata) : Option Metadata :=
  if rulesEngine.isSome && hasAnalyzer then
    match ana with
    | .ok m => some m
    | .error _ => none
  else none

/-- The three-tier classification cascade (organizer.py lines 118-159).
Tier 1: a configured rules engine whose first matching rule has a truthy
(non-empty) target wins.  Tier 2 (analyzer configured and ai enabled):
reuse tier-1 metadata or analyze now; a truthy suggested_category wins,
otherwise the name-keyword classifier with use_ai; an analyzer exception
falls through.  Tier 3: the standard classifier. -/
def classifyCascade (cfg : Config) (rulesEngine : Option (List Rule)) (hasAnalyzer : Bool)
    (ctx : FileCtx) (ana : Except String Metadata) : String × Tier :=
  let md := tier1Meta rulesEngine hasAnalyzer ana
  let cat1 : Option String :=
    match rulesEngine with
    | none => none
    | some rs =>
      match applyRules rs ctx md with
      | some t => if t = "" then none else some t
      | none => none
  match cat1 with
  | some t => (t, .rules)
  | none =>
    if hasAnalyzer && cfg.ai_classification then
      let md2 : Option Metadata :=
        match md with
        | some m => some m
        | none =>
          match ana with
          | .ok m => some m
          | .error _ => none
      match md2 with
      | some m =>
        match m.suggested_category with
        | some s => if s = "" then (classify ctx.name true, .nameHeur) else (s, .content)
        | none => (classify ctx.name true, .nameHeur)
      | none => (classify ctx.name cfg.ai_classification, .fallback)
    else (classify ctx.name cfg.ai_classification, .fallback)

/-- The tail of organize_file after the duplicate stage: classify, move
into organized_folder/category under a collision-free name, then log and
update statistics; a move failure is caught by the outer handler, which
logs a failed entry with empty destination and category and bumps the
Errors statistic. -/
def classifyAndMove (cfg : Config) (rulesEngine : Option (List Rule)) (hasAnalyzer : Bool)
    (name fpath : String) (env : Env) (hOpt : Option String)
    (idx : List (String × DupEntry)) (dupRep : Option Bool) : OrganizeResult :=
  let ctx : FileCtx := ⟨name, env.fileSize, env.ageDays⟩
  let cc := classifyCascade cfg rulesEngine hasAnalyzer ctx env.analyzerResult
  let cat := cc.1
  let pr := stemSuffix name
  let dest := getUniquePath (joinPath cfg.organized_folder cat) pr.1 pr.2 env.existing
  match env.moveResult with
  | .error e =>
    { success := false, message := "Error: " ++ e, category := "", size := env.fileSize,
      outcome := .errored,
      logs := [⟨name, fpath, "", "", "organize", env.fileSize, hOpt, false, some e⟩],
      stats := [("Errors", 0, 0, 0, 1)], moved := none, dupIndex := idx,
      dupReported := dupRep, classification := some cc }
  | .ok _ =>
    { success := true, message := "Moved to " ++ cat, category := cat, size := env.fileSize,
      outcome := .organized,
      logs := [⟨name, fpath, dest, cat, "organize", env.fileSize, hOpt, true, none⟩],
      stats := [(cat, 1, env.fileSize, 0, 0)], moved := some (fpath, dest), dupIndex := idx,
      dupReported := dupRep, classification := some cc }

/-- `FileOrganizer.organize_file` (organizer.py lines 38-215).  Stages:
existence check, size-limit check, duplicate check (hash plus index
upsert, moving a detected duplicate into the duplicate folder), the
classification cascade, the move, and the ledger/statistics writes.  A
hash or move exception is caught by the outer handler and logged as a
failed entry. -/
def organizeFile (cfg : Config) (rulesEngine : Option (List Rule)) (hasAnalyzer : Bool)
    (name fpath : String) (env : Env)
    (idx0 : List (String × DupEntry)) : OrganizeResult :=
  if env.fileExists = false then
    { success := false, message := "File not found", category := "", size := 0,
      outcome := .notFound,
      logs := [⟨name, fpath, "", "", "organize", 0, none, false, some "File not found"⟩],
      stats := [], moved := none, dupIndex := idx0, dupReported := none,
      classification := none }
  else
    let size := env.fileSize
    let sizeMB := sizeMBOf size
    if natQ cfg.max_file_size_mb < sizeMB then
      { success := false, message := tooLargeMsg sizeMB, category := "", size := size,
        outcome := .tooLarge,
        logs := [⟨name, fpath, "", "", "organize", size, none, false, some (tooLargeMsg sizeMB)⟩],
        stats := [], moved := none, dupIndex := idx0, dupReported := none,
        classification := none }
    else
      if cfg.enable_duplicates then
        match env.hashResult with
        | .error e =>
          { success := false, message := "Error: " ++ e, category := "", size := size,
            outcome := .errored,
            logs := [⟨name, fpath, "", "", "organize", size, none, false, some e⟩],
            stats := [("Errors", 0, 0, 0, 1)], moved := none, dupIndex := idx0,
            dupReported := none, classification := none }
        | .ok h =>
          let pr := addDuplicateHash env.dbAddDupFails h fpath size env.now idx0
          if pr.2 then
            let sp := stemSuffix name
            let dest := getUniquePath cfg.duplicate_folder sp.1 sp.2 env.existing
            match env.moveResult with
            | .error e =>
              { success := false, message := "Error: " ++ e, category := "", size := size,
                outcome := .errored,
                logs := [⟨name, fpath, "", "", "organize", size, some h, false, some e⟩],
                stats := [("Errors", 0, 0, 0, 1)], moved := none, dupIndex := pr.1,
                dupReported := some true, classification := none }
            | .ok _ =>
              { success := true, message := "Duplicate detected", category := "Duplicates",
                size := size, outcome := .duplicate,
                logs := [⟨name, fpath, dest, "Duplicates", "duplicate", size, some h, true, none⟩],
                stats := [("Duplicates", 1, size, 1, 0)], moved := some (fpath, dest),
                dupIndex := pr.1, dupReported := some true, classification := none }
          else
            classifyAndMove cfg rulesEngine hasAnalyzer name fpath env (some h) pr.1 (some false)
      else
        classifyAndMove cfg rulesEngine hasAnalyzer name fpath env none idx0 none

/-! ## Undo (history_viewer.py, undo_operation)

The ledger is the list of operation rows; the filesystem is the list of
existing paths; the user is assumed to confirm the dialog.  A move of a
path is modelled as erasing it and appending the target. -/

inductive UndoStatus where
  | opMissing : UndoStatus
  | sourceMissing : UndoStatus
  | done : UndoStatus
deriving DecidableEq

structure UndoOut where
  status : UndoStatus
  ledger : List OpRow
  fs : List String
deriving DecidableEq

/-- The ledger row the undo handler logs after a successful restore: the
paths are swapped (it records the move back), the kind is undo, and the
store gives the fresh row the default can_undo = 1. -/
def undoLogRow (op : OpRow) (nextId : Nat) : OpRow :=
  ⟨nextId,
    ⟨op.entry.filename, op.entry.destination_path, op.entry.original_path, "Undo", "undo",
      op.entry.file_size, none, true, none⟩,
    true⟩

/-- `HistoryViewer.undo_operation` (lines 201-256): look the operation up
by id; stop if it is absent or the file is no longer at the recorded
destination (leaving the ledger untouched); otherwise move the file back
to the recorded original path, mark the row undone, and append a new
successful undo row. -/
def undoOperation (ledger : List OpRow) (fs : List String) (opId : Nat) (nextId : Nat) :
    UndoOut :=
  match ledger.find? (fun r => r.id == opId) with
  | none => ⟨.opMissing, ledger, fs⟩
  | some op =>
    let source := op.entry.destination_path
    let dest := op.entry.original_path
    if source ∈ fs then
      ⟨.done, (markOperationUndone opId ledger) ++ [undoLogRow op nextId],
        (fs.erase source) ++ [dest]⟩
    else ⟨.sourceMissing, ledger, fs⟩

/-! ## Claim theorems -/

/-- Claim C3: rule pattern matching is decided by a syntactic heuristic:
a pattern containing any of the characters bracket, paren, caret, dollar
or plus is evaluated as a case-insensitive regular expression that must
match from the start of the filename, and every other pattern as a shell
glob against the filename; pattern *invoice* is a glob matching
March_invoice.pdf, and pattern invoice_[0-9]+\.pdf is a regex matching
invoice_42.pdf but not invoice_abc.pdf. -/
theorem C3_pattern_heuristic :
    (∀ p name : String, hasSpecial p = true → matchPattern p name = reMatchIC p name) ∧
    (∀ p name : String, p.data ≠ [] → hasSpecial p = false →
      matchPattern p name = globMatch p.data name.data) ∧
    matchPattern "*invoice*" "March_invoice.pdf" = true ∧
    matchPattern "invoice_[0-9]+\\.pdf" "invoice_42.pdf" = true ∧
    matchPattern "invoice_[0-9]+\\.pdf" "invoice_abc.pdf" = false := by
  refine ⟨?_, ?_, by decide, by decide, by decide⟩
  · intro p name hs
    have hne : ¬p.data = [] := by
      intro h
      rw [hasSpecial, h] at hs
      simp [List.any] at hs
    rw [matchPattern, if_neg hne, if_pos hs]
  · intro p name hne hs
    rw [matchPattern, if_neg hne, if_neg (by simp [hs])]

/-- Witness for C3: both universal parts applied at concrete patterns. -/
theorem C3_pattern_heuristic_witness :
    matchPattern "inv+x" "invvx.pdf" = reMatchIC "inv+x" "invvx.pdf" ∧
    matchPattern "*x*" "axb" = globMatch "*x*".data "axb".data := by
  exact ⟨C3_pattern_heuristic.1 "inv+x" "invvx.pdf" (by decide),
    C3_pattern_heuristic.2.1 "*x*" "axb" (by decide) (by decide)⟩

/-- A condition set whose only present key is has_gps. -/
def gpsOnlyConds (v : Bool) : Conditions := { has_gps := some v }

/-- Analyzer metadata for an image without GPS data: the has_gps key is
absent (the analyzer only ever sets it to true). -/
def mdNoGps : Metadata := ⟨"", analyzeImageHasGps false, none⟩

/-- Counterexample to C5 as stated: for a has_gps = false condition and a
file whose analyzed metadata records no GPS data (presence = false = v),
the rule conditions do NOT hold, because the analyzer leaves the key
unset and the check compares None against False. -/
theorem C5_counterexample :
    (gpsOnlyConds false).has_gps = some false ∧
    mdNoGps.has_gps ≠ some true ∧
    checkConditions ⟨"p.jpg", 100, 0⟩ (some mdNoGps) (gpsOnlyConds false) = false := by
  decide

/-- Claim C5, amended: a has_gps = v condition holds exactly when the
metadata records has_gps with exactly the value v; since _analyze_image
sets has_gps only to true (when GPSInfo is present) and otherwise leaves
it unset, a has_gps = true rule matches exactly the GPS-bearing files,
while a has_gps = false rule matches no analyzer-produced metadata. -/
theorem C5_gps_condition (ctx : FileCtx) (md : Metadata) (v g : Bool)
    (hmd : md.has_gps = analyzeImageHasGps g) :
    (checkConditions ctx (some md) (gpsOnlyConds v) = (md.has_gps == some v)) ∧
    (checkConditions ctx (some md) (gpsOnlyConds true) = g) ∧
    (checkConditions ctx (some md) (gpsOnlyConds false) = false) := by
  have hbase : ∀ w : Bool,
      checkConditions ctx (some md) (gpsOnlyConds w) = (md.has_gps == some w) := by
    intro w
    simp [checkConditions, condMinSize, condMaxSize, condOlder, condNewer, condExt,
      condText, condGps, gpsOnlyConds, effGps]
  refine ⟨hbase v, ?_, ?_⟩
  · rw [hbase true, hmd]
    cases g <;> simp [analyzeImageHasGps]
  · rw [hbase false, hmd]
    cases g <;> simp [analyzeImageHasGps]

/-- Witness for C5_gps_condition at a concrete metadata value. -/
theorem C5_gps_condition_witness :
    checkConditions ⟨"p.jpg", 100, 0⟩ (some ⟨"", some true, none⟩) (gpsOnlyConds true) = true := by
  exact (C5_gps_condition ⟨"p.jpg", 100, 0⟩ ⟨"", some true, none⟩ true true (by decide)).2.1

/-- A rule carrying a contains_text condition whose required substring is
the empty string. -/
def emptyTextRule : Rule := ⟨1, "t", "*", "X", { contains_text := some "" }, 0, true⟩

/-- Counterexample to C6 as stated: a rule carrying a contains_text
condition is NOT skipped when metadata is absent if the required
substring is empty — the empty string is contained in the defaulted
empty text, so the rule matches and apply_rules returns its target. -/
theorem C6_counterexample :
    emptyTextRule.conditions.contains_text = some "" ∧
    ruleMatches ⟨"doc.txt", 10, 0⟩ none emptyTextRule = true ∧
    applyRules [emptyTextRule] ⟨"doc.txt", 10, 0⟩ none = some "X" := by
  decide

/-- Claim C6, amended: a rule carrying a has_gps condition, or a
contains_text condition with a non-empty required substring, is treated
as non-matching when apply_rules is invoked with absent metadata (and the
total model raises nothing); apply_rules simply skips it.  A rule whose
contains_text condition is the empty string is not blocked by absent
metadata. -/
theorem C6_absent_metadata (r : Rule) (ctx : FileCtx)
    (h : r.conditions.has_gps.isSome = true ∨
      ∃ s, r.conditions.contains_text = some s ∧ s ≠ "") :
    ruleMatches ctx none r = false ∧
    ∀ rest, applyRules (r :: rest) ctx none = applyRules rest ctx none := by
  have hcc : checkConditions ctx none r.conditions = false := by
    rcases h with hgps | ⟨s, hs, hne⟩
    · obtain ⟨v, hv⟩ := Option.isSome_iff_exists.mp hgps
      have : condGps none r.conditions = false := by
        rw [condGps, hv]
        simp [effGps]
      simp [checkConditions, this]
    · have hsd : s.data ≠ [] := by
        intro hd
        apply hne
        cases s
        simp_all
      have : condText none r.conditions = false := by
        rw [condText, hs]
        dsimp only
        have htext : lowerL (textOf (none : Option Metadata)).data = [] := by
          simp [textOf, lowerL]
        rw [htext]
        rcases hsl : lowerL s.data with _ | ⟨c, t⟩
        · exact absurd (by simpa [lowerL] using hsl) hsd
        · rfl
      simp [checkConditions, this]
  have hrm : ruleMatches ctx none r = false := by
    simp [ruleMatches, hcc]
  exact ⟨hrm, fun rest => by simp [applyRules, hrm]⟩

/-- Witness for C6_absent_metadata on a concrete GPS-conditioned rule. -/
theorem C6_absent_metadata_witness :
    ruleMatches ⟨"a.jpg", 10, 0⟩ none ⟨2, "g", "*", "Y", gpsOnlyConds true, 0, true⟩ = false ∧
    applyRules [⟨2, "g", "*", "Y", gpsOnlyConds true, 0, true⟩] ⟨"a.jpg", 10, 0⟩ none =
      applyRules [] ⟨"a.jpg", 10, 0⟩ none := by
  have h := C6_absent_metadata ⟨2, "g", "*", "Y", gpsOnlyConds true, 0, true⟩ ⟨"a.jpg", 10, 0⟩
    (Or.inl (by decide))
  exact ⟨h.1, h.2 []⟩

/-- Claim C8: log_operation never propagates an exception: it is a total
function of the persistence outcome that returns the new row id on
success and the negative sentinel -1 when the underlying insert fails. -/
theorem C8_log_sentinel :
    (∀ le i, logOperation le (.ok i) = (i : Int)) ∧
    (∀ le e, logOperation le (.error e) = -1) ∧
    (∀ le e, logOperation le (.error e) < 0) := by
  refine ⟨fun le i => rfl, fun le e => rfl, fun le e => ?_⟩
  rw [logOperation]
  decide

/-- The size check of organize_file over exact arithmetic: the divided
comparison equals the cross-multiplied integer comparison. -/
theorem size_check_iff (m s : Nat) : natQ m < sizeMBOf s ↔ m * 1048576 < s := by
  rw [natQ_eq, sizeMBOf_eq, lt_div_iff₀ (by norm_num : (0 : ℚ) < 1048576)]
  norm_cast

/-- The classification the tail of the pipeline records is the cascade
result, whether or not the move then succeeds. -/
theorem classifyAndMove_classification (cfg : Config) (re : Option (List Rule)) (hasA : Bool)
    (name fpath : String) (env : Env) (hOpt : Option String)
    (idx : List (String × DupEntry)) (dupRep : Option Bool) :
    (classifyAndMove cfg re hasA name fpath env hOpt idx dupRep).classification =
      some (classifyCascade cfg re hasA ⟨name, env.fileSize, env.ageDays⟩ env.analyzerResult) := by
  rw [classifyAndMove]
  cases henv : env.moveResult <;> simp

/-- When the first matching rule yields a non-empty target, tier 1 wins. -/
theorem classifyCascade_rules (cfg : Config) (rs : List Rule) (hasA : Bool) (ctx : FileCtx)
    (ana : Except String Metadata) (t : String)
    (hr : applyRules rs ctx (tier1Meta (some rs) hasA ana) = some t) (ht : t ≠ "") :
    classifyCascade cfg (some rs) hasA ctx ana = (t, .rules) := by
  rw [classifyCascade.eq_def]
  simp [hr, ht]

/-- The tail of the pipeline never reports tooLarge. -/
theorem classifyAndMove_not_tooLarge (cfg : Config) (re : Option (List Rule)) (hasA : Bool)
    (name fpath : String) (env : Env) (hOpt : Option String)
    (idx : List (String × DupEntry)) (dupRep : Option Bool) :
    (classifyAndMove cfg re hasA name fpath env hOpt idx dupRep).outcome ≠ .tooLarge := by
  rw [classifyAndMove]
  cases henv : env.moveResult <;> simp

/-- Once the size check passes, no later stage reports tooLarge. -/
theorem organizeFile_not_tooLarge (cfg : Config) (re : Option (List Rule)) (hasA : Bool)
    (name fpath : String) (env : Env) (idx0 : List (String × DupEntry))
    (hex : env.fileExists = true)
    (hsz : ¬natQ cfg.max_file_size_mb < sizeMBOf env.fileSize) :
    (organizeFile cfg re hasA name fpath env idx0).outcome ≠ .tooLarge := by
  rw [organizeFile]
  simp only [hex, Bool.true_eq_false, if_false, if_neg hsz]
  cases henb : cfg.enable_duplicates
  · simp only [Bool.false_eq_true, if_false]
    exact classifyAndMove_not_tooLarge _ _ _ _ _ _ _ _ _
  · simp only [if_true]
    cases hh : env.hashResult with
    | error e => simp
    | ok h =>
      simp only []
      split
      · cases henv : env.moveResult <;> simp
      · exact classifyAndMove_not_tooLarge _ _ _ _ _ _ _ _ _

/-- Claim C4: a file of exactly the configured maximum size is not
rejected for size; a file even one byte over the limit (in fact any file
strictly over it) yields the TooLarge failure with the computed size in
the message, one failure ledger entry with empty destination, no move,
and an untouched duplicate index. -/
theorem C4_size_boundary (cfg : Config) (re : Option (List Rule)) (hasA : Bool)
    (name fpath : String) (env : Env) (idx0 : List (String × DupEntry))
    (hex : env.fileExists = true) :
    (env.fileSize = cfg.max_file_size_mb * 1048576 →
      (organizeFile cfg re hasA name fpath env idx0).outcome ≠ .tooLarge) ∧
    (cfg.max_file_size_mb * 1048576 < env.fileSize →
      organizeFile cfg re hasA name fpath env idx0 =
        { success := false, message := tooLargeMsg (sizeMBOf env.fileSize), category := "",
          size := env.fileSize, outcome := .tooLarge,
          logs := [⟨name, fpath, "", "", "organize", env.fileSize, none, false,
            some (tooLargeMsg (sizeMBOf env.fileSize))⟩],
          stats := [], moved := none, dupIndex := idx0, dupReported := none,
          classification := none }) := by
  constructor
  · intro hexact
    apply organizeFile_not_tooLarge _ _ _ _ _ _ _ hex
    rw [size_check_iff, hexact]
    omega
  · intro hover
    have hsz : natQ cfg.max_file_size_mb < sizeMBOf env.fileSize :=
      (size_check_iff _ _).mpr hover
    rw [organizeFile]
    simp [hex, hsz]

/-- Witness for C4 at the concrete boundary: limit 10 MB, file of exactly
10*1048576 bytes accepted, 10*1048576+1 bytes rejected. -/
theorem C4_size_boundary_witness :
    (organizeFile ⟨10, false, false, "D", "O"⟩ none false "a.txt" "/w/a.txt"
      ⟨true, 10 * 1048576, 0, 0, .ok "h", false, .error "na", [], .ok ()⟩ []).outcome ≠
        .tooLarge ∧
    (organizeFile ⟨10, false, false, "D", "O"⟩ none false "a.txt" "/w/a.txt"
      ⟨true, 10 * 1048576 + 1, 0, 0, .ok "h", false, .error "na", [], .ok ()⟩ []).outcome =
        .tooLarge := by
  constructor
  · exact (C4_size_boundary ⟨10, false, false, "D", "O"⟩ none false "a.txt" "/w/a.txt"
      ⟨true, 10 * 1048576, 0, 0, .ok "h", false, .error "na", [], .ok ()⟩ [] (by decide)).1
      (by decide)
  · rw [(C4_size_boundary ⟨10, false, false, "D", "O"⟩ none false "a.txt" "/w/a.txt"
      ⟨true, 10 * 1048576 + 1, 0, 0, .ok "h", false, .error "na", [], .ok ()⟩ [] (by decide)).2
      (by decide)]

/-- Claim C10: when the duplicate-index upsert fails inside the store, the
error is swallowed and the answer is false (not a duplicate), so the
pipeline records nothing for the digest and organizes the file as a
normal (first-seen) file. -/
theorem C10_dup_persist_failure (cfg : Config) (re : Option (List Rule)) (hasA : Bool)
    (name fpath : String) (env : Env) (idx0 : List (String × DupEntry)) (h : String)
    (hex : env.fileExists = true)
    (hsz : ¬natQ cfg.max_file_size_mb < sizeMBOf env.fileSize)
    (hen : cfg.enable_duplicates = true) (hh : env.hashResult = .ok h)
    (hdb : env.dbAddDupFails = true) (hm : env.moveResult = .ok ()) :
    (∀ h2 p : String, ∀ s n : Nat, ∀ idx, addDuplicateHash true h2 p s n idx = (idx, false)) ∧
    (organizeFile cfg re hasA name fpath env idx0).outcome = .organized ∧
    (organizeFile cfg re hasA name fpath env idx0).dupReported = some false ∧
    (organizeFile cfg re hasA name fpath env idx0).dupIndex = idx0 := by
  have hAdd : ∀ h2 p : String, ∀ s n : Nat, ∀ idx,
      addDuplicateHash true h2 p s n idx = (idx, false) := by
    intro h2 p s n idx
    rw [addDuplicateHash]
    simp
  refine ⟨hAdd, ?_⟩
  rw [organizeFile]
  simp only [hex, Bool.true_eq_false, if_false, if_neg hsz, hen, if_true, hh, hdb, hAdd]
  rw [classifyAndMove]
  rw [hm]
  simp

/-- Witness for C10: a concrete run with a failing duplicate upsert. -/
theorem C10_dup_persist_failure_witness :
    (organizeFile ⟨1000, true, false, "D", "O"⟩ none false "x.png" "/w/x.png"
      ⟨true, 5000, 3, 17, .ok "h1", true, .error "na", [], .ok ()⟩ []).outcome =
      Outcome.organized ∧
    (organizeFile ⟨1000, true, false, "D", "O"⟩ none false "x.png" "/w/x.png"
      ⟨true, 5000, 3, 17, .ok "h1", true, .error "na", [], .ok ()⟩ []).dupIndex = [] := by
  have h := C10_dup_persist_failure ⟨1000, true, false, "D", "O"⟩ none false "x.png"
    "/w/x.png" ⟨true, 5000, 3, 17, .ok "h1", true, .error "na", [], .ok ()⟩ [] "h1"
    (by decide) (by decide) (by decide) rfl (by decide) rfl
  exact ⟨h.2.1, h.2.2.2⟩

/-- Claim C1, amended: for a file that reaches the classification stage
with a rules engine configured, if apply_rules returns a target folder
and that target is non-empty, the assigned category is exactly that
target and it is attributed to tier 1 (rules) — the content suggestion
and the extension/keyword lookup never determine it.  (The amendment:
a matched rule whose target folder is the empty string is falsy in the
organizer, so the lower tiers are consulted in that degenerate case.) -/
theorem C1_rule_tier_wins (cfg : Config) (rs : List Rule) (hasA : Bool)
    (name fpath : String) (env : Env) (idx0 : List (String × DupEntry)) (t : String)
    (hex : env.fileExists = true)
    (hsz : ¬natQ cfg.max_file_size_mb < sizeMBOf env.fileSize)
    (hdup : cfg.enable_duplicates = true → ∃ h, env.hashResult = .ok h ∧
      (addDuplicateHash env.dbAddDupFails h fpath env.fileSize env.now idx0).2 = false)
    (hr : applyRules rs ⟨name, env.fileSize, env.ageDays⟩
      (tier1Meta (some rs) hasA env.analyzerResult) = some t)
    (ht : t ≠ "") :
    (organizeFile cfg (some rs) hasA name fpath env idx0).classification =
      some (t, Tier.rules) := by
  have hfin : ∀ hOpt idx dupRep,
      (classifyAndMove cfg (some rs) hasA name fpath env hOpt idx dupRep).classification =
        some (t, Tier.rules) := by
    intro hOpt idx dupRep
    rw [classifyAndMove_classification,
      classifyCascade_rules cfg rs hasA ⟨name, env.fileSize, env.ageDays⟩
        env.analyzerResult t hr ht]
  rw [organizeFile]
  simp only [hex, Bool.true_eq_false, if_false, if_neg hsz]
  cases henb : cfg.enable_duplicates
  · simp only [Bool.false_eq_true, if_false]
    exact hfin _ _ _
  · obtain ⟨h, hh, hfalse⟩ := hdup henb
    simp only [if_true, hh, hfalse]
    simp only [hfalse, Bool.false_eq_true, if_false]
    exact hfin _ _ _

/-- Witness for C1_rule_tier_wins on a concrete invoice rule. -/
theorem C1_rule_tier_wins_witness :
    (organizeFile ⟨1000, false, false, "D", "O"⟩
      (some [⟨1, "inv", "*invoice*", "Finance/Invoices", {}, 8, true⟩]) false
      "March_invoice.pdf" "/w/March_invoice.pdf"
      ⟨true, 5000, 3, 17, .ok "h1", false, .error "na", [], .ok ()⟩ []).classification =
      some ("Finance/Invoices", Tier.rules) := by
  exact C1_rule_tier_wins ⟨1000, false, false, "D", "O"⟩
    [⟨1, "inv", "*invoice*", "Finance/Invoices", {}, 8, true⟩] false
    "March_invoice.pdf" "/w/March_invoice.pdf"
    ⟨true, 5000, 3, 17, .ok "h1", false, .error "na", [], .ok ()⟩ [] "Finance/Invoices"
    (by decide) (by decide) (fun hcontr => absurd hcontr (by decide)) (by decide) (by decide)

/-- A rule whose target folder is the empty string. -/
def emptyTargetRule : Rule := ⟨1, "all", "*", "", {}, 0, true⟩

def cexCfg : Config := ⟨1000, false, false, "Dups", "Org"⟩

def cexEnv : Env := ⟨true, 5000, 3, 17, .ok "h1", false, .error "no analyzer", [], .ok ()⟩

/-- Counterexample to C1 as stated: an enabled rule matches the file and
apply_rules returns its (empty) target folder, yet the assigned category
is the tier-3 extension-table category Images, because the organizer
tests the returned target for Python truthiness and the empty string is
falsy. -/
theorem C1_counterexample :
    ruleMatches ⟨"x.png", 5000, 3⟩ none emptyTargetRule = true ∧
    applyRules [emptyTargetRule] ⟨"x.png", 5000, 3⟩
      (tier1Meta (some [emptyTargetRule]) false cexEnv.analyzerResult) = some "" ∧
    (organizeFile cexCfg (some [emptyTargetRule]) false "x.png" "/w/x.png" cexEnv
      []).classification = some ("Images", Tier.fallback) ∧
    (organizeFile cexCfg (some [emptyTargetRule]) false "x.png" "/w/x.png" cexEnv
      []).category = "Images" := by
  decide

/-- Looking up the updated digest after the conditional bump map yields
the bumped entry. -/
theorem lookupIdx_map_update (h : String) (f : DupEntry → DupEntry) :
    ∀ idx : List (String × DupEntry),
      lookupIdx h (idx.map fun p => if p.1 == h then (p.1, f p.2) else p) =
        (lookupIdx h idx).map f := by
  intro idx
  induction idx with
  | nil => rfl
  | cons p t ih =>
    by_cases hp : (p.1 == h) = true
    · simp [lookupIdx, List.find?, hp]
    · simp only [List.map_cons, if_neg hp]
      simp only [lookupIdx, List.find?, hp] at ih ⊢
      exact ih

/-- The conditional bump map leaves every other digest untouched. -/
theorem lookupIdx_map_other (h h2 : String) (hne : h2 ≠ h) (f : DupEntry → DupEntry) :
    ∀ idx : List (String × DupEntry),
      lookupIdx h2 (idx.map fun p => if p.1 == h then (p.1, f p.2) else p) =
        lookupIdx h2 idx := by
  intro idx
  induction idx with
  | nil => rfl
  | cons p t ih =>
    by_cases hp : (p.1 == h) = true
    · have hp2 : (p.1 == h2) = false := by
        have hph : p.1 = h := by simpa using hp
        rw [hph]
        simp only [beq_eq_false_iff_ne, ne_eq]
        exact fun hcontr => hne hcontr.symm
      simp only [List.map_cons, if_pos hp]
      simp only [lookupIdx, List.find?, hp2] at ih ⊢
      exact ih
    · simp only [List.map_cons, if_neg hp]
      by_cases hp2 : (p.1 == h2) = true
      · simp [lookupIdx, List.find?, hp2]
      · simp only [lookupIdx, List.find?, hp2] at ih ⊢
        exact ih

/-- Claim C2: with duplicate detection on, a digest already present in
the index makes organize return the Duplicate outcome, move the file to
a collision-free name directly under the configured duplicate folder,
and bump exactly that digest entry (count +1, last seen refreshed, the
recorded first-seen path untouched, all other digests untouched); a
first-seen digest is inserted, reported as not a duplicate, and the file
proceeds to normal classification. -/
theorem C2_duplicate_flow (cfg : Config) (re : Option (List Rule)) (hasA : Bool)
    (name fpath : String) (env : Env) (idx0 : List (String × DupEntry)) (h : String)
    (hex : env.fileExists = true)
    (hsz : ¬natQ cfg.max_file_size_mb < sizeMBOf env.fileSize)
    (hen : cfg.enable_duplicates = true)
    (hh : env.hashResult = .ok h)
    (hdb : env.dbAddDupFails = false)
    (hm : env.moveResult = .ok ()) :
    (∀ e, lookupIdx h idx0 = some e →
      (organizeFile cfg re hasA name fpath env idx0).outcome = .duplicate ∧
      (organizeFile cfg re hasA name fpath env idx0).success = true ∧
      (organizeFile cfg re hasA name fpath env idx0).message = "Duplicate detected" ∧
      (organizeFile cfg re hasA name fpath env idx0).category = "Duplicates" ∧
      (organizeFile cfg re hasA name fpath env idx0).moved = some (fpath,
        getUniquePath cfg.duplicate_folder (stemSuffix name).1 (stemSuffix name).2
          env.existing) ∧
      getUniquePath cfg.duplicate_folder (stemSuffix name).1 (stemSuffix name).2 env.existing ∉
        env.existing ∧
      (∃ rest, (getUniquePath cfg.duplicate_folder (stemSuffix name).1 (stemSuffix name).2
        env.existing).data = cfg.duplicate_folder.data ++ '/' :: rest) ∧
      lookupIdx h (organizeFile cfg re hasA name fpath env idx0).dupIndex =
        some { e with last_seen := env.now, duplicate_count := e.duplicate_count + 1 } ∧
      (∀ h2, h2 ≠ h →
        lookupIdx h2 (organizeFile cfg re hasA name fpath env idx0).dupIndex =
          lookupIdx h2 idx0)) ∧
    (lookupIdx h idx0 = none →
      addDuplicateHash false h fpath env.fileSize env.now idx0 =
        (idx0 ++ [(h, ⟨fpath, env.fileSize, env.now, env.now, 0⟩)], false) ∧
      (organizeFile cfg re hasA name fpath env idx0).dupReported = some false ∧
      (organizeFile cfg re hasA name fpath env idx0).classification.isSome = true) := by
  constructor
  · intro e he
    have hAdd : addDuplicateHash env.dbAddDupFails h fpath env.fileSize env.now idx0 =
        (idx0.map fun p => if p.1 == h then (p.1, bumpEntry env.now p.2) else p, true) := by
      rw [hdb]
      simp [addDuplicateHash, he]
    have hrun : organizeFile cfg re hasA name fpath env idx0 =
        { success := true, message := "Duplicate detected", category := "Duplicates",
          size := env.fileSize, outcome := .duplicate,
          logs := [⟨name, fpath,
            getUniquePath cfg.duplicate_folder (stemSuffix name).1 (stemSuffix name).2
              env.existing, "Duplicates", "duplicate", env.fileSize, some h, true, none⟩],
          stats := [("Duplicates", 1, env.fileSize, 1, 0)],
          moved := some (fpath,
            getUniquePath cfg.duplicate_folder (stemSuffix name).1 (stemSuffix name).2
              env.existing),
          dupIndex := idx0.map fun p => if p.1 == h then (p.1, bumpEntry env.now p.2) else p,
          dupReported := some true, classification := none } := by
      rw [organizeFile]
      simp only [hex, Bool.true_eq_false, if_false, if_neg hsz, hen, if_true, hh, hAdd, hm]
    refine ⟨by rw [hrun], by rw [hrun], by rw [hrun], by rw [hrun], by rw [hrun],
      getUniquePath_not_mem _ _ _ _, getUniquePath_under _ _ _ _, ?_, ?_⟩
    · rw [hrun]
      dsimp only
      rw [lookupIdx_map_update, he]
      rfl
    · intro h2 hne
      rw [hrun]
      dsimp only
      rw [lookupIdx_map_other h h2 hne]
  · intro hnone
    have hAdd2 : addDuplicateHash false h fpath env.fileSize env.now idx0 =
        (idx0 ++ [(h, ⟨fpath, env.fileSize, env.now, env.now, 0⟩)], false) := by
      simp [addDuplicateHash, hnone]
    have hAdd : addDuplicateHash env.dbAddDupFails h fpath env.fileSize env.now idx0 =
        (idx0 ++ [(h, ⟨fpath, env.fileSize, env.now, env.now, 0⟩)], false) := by
      rw [hdb, hAdd2]
    have hrun : organizeFile cfg re hasA name fpath env idx0 =
        classifyAndMove cfg re hasA name fpath env (some h)
          (idx0 ++ [(h, ⟨fpath, env.fileSize, env.now, env.now, 0⟩)]) (some false) := by
      rw [organizeFile]
      simp only [hex, Bool.true_eq_false, if_false, if_neg hsz, hen, if_true, hh, hAdd]
      simp
    refine ⟨hAdd2, ?_, ?_⟩
    · rw [hrun, classifyAndMove]
      cases henv : env.moveResult <;> simp
    · rw [hrun, classifyAndMove_classification]
      rfl

/-- Witness for C2 with one digest already in the index and a fresh one. -/
theorem C2_duplicate_flow_witness :
    (organizeFile ⟨1000, true, false, "Dups", "Org"⟩ none false "x.png" "/w/x.png"
      ⟨true, 5000, 3, 17, .ok "h1", false, .error "na", ["Dups/x.png"], .ok ()⟩
      [("h1", ⟨"/old/x.png", 5000, 1, 1, 0⟩)]).outcome = Outcome.duplicate ∧
    lookupIdx "h1" (organizeFile ⟨1000, true, false, "Dups", "Org"⟩ none false "x.png"
      "/w/x.png" ⟨true, 5000, 3, 17, .ok "h1", false, .error "na", ["Dups/x.png"], .ok ()⟩
      [("h1", ⟨"/old/x.png", 5000, 1, 1, 0⟩)]).dupIndex =
      some ⟨"/old/x.png", 5000, 1, 17, 1⟩ ∧
    addDuplicateHash false "h2" "/w/y.png" 7 9 [] = ([("h2", ⟨"/w/y.png", 7, 9, 9, 0⟩)], false) := by
  have hmain := C2_duplicate_flow ⟨1000, true, false, "Dups", "Org"⟩ none false "x.png"
    "/w/x.png" ⟨true, 5000, 3, 17, .ok "h1", false, .error "na", ["Dups/x.png"], .ok ()⟩
    [("h1", ⟨"/old/x.png", 5000, 1, 1, 0⟩)] "h1" (by decide) (by decide) (by decide) rfl
    (by decide) rfl
  have hfresh := C2_duplicate_flow ⟨1000, true, false, "Dups", "Org"⟩ none false "y.png"
    "/w/y.png" ⟨true, 7, 3, 9, .ok "h2", false, .error "na", [], .ok ()⟩ [] "h2"
    (by decide) (by decide) (by decide) rfl (by decide) rfl
  obtain ⟨ha, -, -, -, -, -, -, hl, -⟩ := hmain.1 ⟨"/old/x.png", 5000, 1, 1, 0⟩ (by decide)
  exact ⟨ha, hl, (hfresh.2 (by decide)).1⟩

/-- String append acts as list append on the underlying characters. -/
theorem strData_append (a b : String) : (a ++ b).data = a.data ++ b.data := by
  cases a
  cases b
  rfl

theorem tooLargeMsg_ne_empty (q : ℚ) : tooLargeMsg q ≠ "" := by
  intro hq
  have hd := congrArg String.data hq
  rw [tooLargeMsg, strData_append, strData_append] at hd
  have h1 := (List.append_eq_nil.mp (List.append_eq_nil.mp hd).1).1
  exact absurd h1 (by decide)

/-- An environment whose move fails with an empty exception text. -/
def noMsgEnv : Env := ⟨true, 5000, 3, 17, .ok "h1", false, .error "na", [], .error ""⟩

/-- Counterexample to C7 as stated: when the caught exception's text is
empty (str(e) = ""), the failure ledger entry carries success = false,
an empty destination — and an EMPTY error message, violating the claimed
non-emptiness. -/
theorem C7_counterexample :
    ∃ le ∈ (organizeFile cexCfg none false "x.png" "/w/x.png" noMsgEnv []).logs,
      le.success = false ∧ le.destination_path = "" ∧ le.error_message = some "" := by
  decide

/-- Claim C7, amended: every ledger entry organize writes with
success = false carries an empty destination path and a present error
message; that message is non-empty on the not-found and size-limit
paths, and on the catch-all path it is the caught exception's text,
hence non-empty whenever the environment's exception texts are
non-empty (the code does not itself enforce this). -/
theorem C7_failure_entries (cfg : Config) (re : Option (List Rule)) (hasA : Bool)
    (name fpath : String) (env : Env) (idx0 : List (String × DupEntry))
    (hh : ∀ s, env.hashResult = Except.error s → s ≠ "")
    (hm : ∀ s, env.moveResult = Except.error s → s ≠ "") :
    ∀ le ∈ (organizeFile cfg re hasA name fpath env idx0).logs,
      le.success = false →
        le.destination_path = "" ∧ ∃ m, le.error_message = some m ∧ m ≠ "" := by
  have hcam : ∀ hOpt idx dupRep, ∀ le ∈ (classifyAndMove cfg re hasA name fpath env
      hOpt idx dupRep).logs, le.success = false →
        le.destination_path = "" ∧ ∃ m, le.error_message = some m ∧ m ≠ "" := by
    intro hOpt idx dupRep le hle hsf
    rw [classifyAndMove] at hle
    cases hmv : env.moveResult with
    | error e =>
      rw [hmv] at hle
      dsimp only at hle
      simp only [List.mem_singleton] at hle
      subst hle
      exact ⟨rfl, e, rfl, hm e hmv⟩
    | ok u =>
      rw [hmv] at hle
      dsimp only at hle
      simp only [List.mem_singleton] at hle
      subst hle
      simp at hsf
  intro le hle hsf
  rw [organizeFile] at hle
  cases hexv : env.fileExists with
  | false =>
    rw [hexv] at hle
    simp at hle
    subst hle
    exact ⟨rfl, "File not found", rfl, by decide⟩
  | true =>
    rw [hexv] at hle
    simp only [Bool.true_eq_false, if_false] at hle
    by_cases hsz : natQ cfg.max_file_size_mb < sizeMBOf env.fileSize
    · rw [if_pos hsz] at hle
      simp only [List.mem_singleton] at hle
      subst hle
      exact ⟨rfl, tooLargeMsg (sizeMBOf env.fileSize), rfl, tooLargeMsg_ne_empty _⟩
    · rw [if_neg hsz] at hle
      cases henb : cfg.enable_duplicates with
      | false =>
        rw [henb] at hle
        simp only [Bool.false_eq_true, if_false] at hle
        exact hcam none idx0 none le hle hsf
      | true =>
        rw [henb] at hle
        simp only [if_true] at hle
        cases hhr : env.hashResult with
        | error e =>
          rw [hhr] at hle
          dsimp only at hle
          simp only [List.mem_singleton] at hle
          subst hle
          exact ⟨rfl, e, rfl, hh e hhr⟩
        | ok hdig =>
          rw [hhr] at hle
          dsimp only at hle
          cases hdup : (addDuplicateHash env.dbAddDupFails hdig fpath env.fileSize env.now
              idx0).2 with
          | true =>
            rw [hdup] at hle
            simp only [if_true] at hle
            cases hmv : env.moveResult with
            | error e =>
              rw [hmv] at hle
              dsimp only at hle
              simp only [List.mem_singleton] at hle
              subst hle
              exact ⟨rfl, e, rfl, hm e hmv⟩
            | ok u =>
              rw [hmv] at hle
              dsimp only at hle
              simp only [List.mem_singleton] at hle
              subst hle
              simp at hsf
          | false =>
            rw [hdup] at hle
            simp only [Bool.false_eq_true, if_false] at hle
            exact hcam (some hdig) _ (some false) le hle hsf

/-- Witness for C7_failure_entries on a not-found run. -/
theorem C7_failure_entries_witness :
    (⟨"x.png", "/w/x.png", "", "", "organize", 0, none, false, some "File not found"⟩ :
        LogEntry).destination_path = "" ∧
    ∃ m, (⟨"x.png", "/w/x.png", "", "", "organize", 0, none, false,
      some "File not found"⟩ : LogEntry).error_message = some m ∧ m ≠ "" := by
  exact C7_failure_entries cexCfg none false "x.png" "/w/x.png"
    ⟨false, 0, 0, 0, .ok "h", false, .error "na", [], .ok ()⟩ []
    (fun s hs => by simp at hs) (fun s hs => by simp at hs)
    ⟨"x.png", "/w/x.png", "", "", "organize", 0, none, false, some "File not found"⟩
    (by decide) rfl

/-- Looking up the row by id after mark_operation_undone yields the row
with its eligibility flipped off. -/
theorem find?_markOperationUndone (opId : Nat) :
    ∀ l : List OpRow,
      (markOperationUndone opId l).find? (fun r => r.id == opId) =
        (l.find? (fun r => r.id == opId)).map fun r => { r with can_undo := false } := by
  intro l
  induction l with
  | nil => rfl
  | cons r t ih =>
    by_cases hid : (r.id == opId) = true
    · simp [markOperationUndone, List.find?, hid]
    · simp only [markOperationUndone, List.map_cons, if_neg hid]
      simp only [markOperationUndone] at ih
      simp only [List.find?, hid]
      exact ih

/-- Claim C9: undoing the ledger entry of a successfully organized file
that is still at its recorded destination moves it back to the recorded
original path, flips that entry's eligibility from true to false, and
appends a new successful undo-kind ledger row. -/
theorem C9_undo_round_trip (ledger : List OpRow) (fs : List String) (opId nextId : Nat)
    (op : OpRow)
    (hfind : ledger.find? (fun r => r.id == opId) = some op)
    (hsrc : op.entry.destination_path ∈ fs)
    (hcu : op.can_undo = true)
    (hsucc : op.entry.success = true)
    (hty : op.entry.operation_type = "organize")
    (hnd : fs.Nodup)
    (hne : op.entry.original_path ≠ op.entry.destination_path) :
    (undoOperation ledger fs opId nextId).status = .done ∧
    (undoOperation ledger fs opId nextId).fs =
      (fs.erase op.entry.destination_path) ++ [op.entry.original_path] ∧
    op.entry.original_path ∈ (undoOperation ledger fs opId nextId).fs ∧
    op.entry.destination_path ∉ (undoOperation ledger fs opId nextId).fs ∧
    (undoOperation ledger fs opId nextId).ledger =
      markOperationUndone opId ledger ++ [undoLogRow op nextId] ∧
    (markOperationUndone opId ledger).find? (fun r => r.id == opId) =
      some { op with can_undo := false } ∧
    ({ op with can_undo := false } : OpRow).can_undo = false ∧
    (undoLogRow op nextId).entry.operation_type = "undo" ∧
    (undoLogRow op nextId).entry.success = true ∧
    (undoLogRow op nextId).entry.destination_path = op.entry.original_path := by
  have hout : undoOperation ledger fs opId nextId =
      ⟨.done, markOperationUndone opId ledger ++ [undoLogRow op nextId],
        (fs.erase op.entry.destination_path) ++ [op.entry.original_path]⟩ := by
    rw [undoOperation, hfind]
    simp [hsrc]
  refine ⟨by rw [hout], by rw [hout], ?_, ?_, by rw [hout], ?_, rfl, rfl, rfl, rfl⟩
  · rw [hout]
    simp
  · rw [hout]
    dsimp only
    intro hmem
    rcases List.mem_append.mp hmem with hl | hr
    · exact absurd ((List.Nodup.mem_erase_iff hnd).mp hl).1 (by simp)
    · exact hne (List.mem_singleton.mp hr).symm
  · rw [find?_markOperationUndone, hfind]
    rfl

/-- Witness for C9 with a one-row ledger and a two-file filesystem. -/
theorem C9_undo_round_trip_witness :
    (undoOperation
      [⟨5, ⟨"x.txt", "/w/x.txt", "Org/Documents/x.txt", "Documents", "organize", 100,
        none, true, none⟩, true⟩]
      ["Org/Documents/x.txt", "other"] 5 6).status = UndoStatus.done ∧
    (undoOperation
      [⟨5, ⟨"x.txt", "/w/x.txt", "Org/Documents/x.txt", "Documents", "organize", 100,
        none, true, none⟩, true⟩]
      ["Org/Documents/x.txt", "other"] 5 6).fs =
      (["Org/Documents/x.txt", "other"].erase "Org/Documents/x.txt") ++ ["/w/x.txt"] := by
  have h := C9_undo_round_trip
    [⟨5, ⟨"x.txt", "/w/x.txt", "Org/Documents/x.txt", "Documents", "organize", 100,
      none, true, none⟩, true⟩]
    ["Org/Documents/x.txt", "other"] 5 6
    ⟨5, ⟨"x.txt", "/w/x.txt", "Org/Documents/x.txt", "Documents", "organize", 100,
      none, true, none⟩, true⟩
    (by decide) (by decide) rfl rfl rfl (by decide) (by decide)
  exact ⟨h.1, h.2.1⟩

end SFO
